import Mathlib

/-!
Verification development for the pcgrl-jax repository.

This file shallowly embeds the environment orchestrator of
`src/envs/pcgrl_env.py` and the freeze-map mutation of `src/evo_accel.py`,
and proves the frozen specification claims about them.

Modelling conventions:
* jax arrays of tiles are embedded as functions `Nat × Nat → Nat` when only
  pointwise behaviour matters, and as `List (List _)` grids when the claim
  also speaks about shapes;
* the jax PRNG primitives (`jax.random.split`, `bernoulli`, `uniform`,
  `choice`, `randint`) live in the jax library, not in this repository; they
  are modelled by an uninterpreted `RandOracle` structure whose fields are
  arbitrary deterministic functions of an abstract key, with
  `bernoulli key p = (uniform key < p)` as in the jax implementation;
* the `Representation` and `Problem` subclasses (`envs/reps/*`,
  `envs/probs/*`) are modules of the repository that are not under `src/`;
  the orchestrator only invokes them through their reset/step/get_obs and
  get_stats interfaces, so they are embedded as interface records
  (`RepIface`, `ProbIface`) with uninterpreted fields.
-/

namespace PCGRL

/-- A tile map: the tile id stored at each (row, col) cell. -/
abbrev TMap := Nat × Nat → Nat

/-- A boolean mask over map cells. -/
abbrev Mask := Nat × Nat → Bool

/-- An abstract jax PRNG key. -/
abbrev Key := Nat

/-- A nested (numpy-style) array: `Arr.dim` is one axis holding sub-arrays.
Used to embed the action arrays, whose rank changes under `action[0]`
indexing and `[None, ...]` axis insertion. -/
inductive Arr (α : Type) : Type where
  | scalar : α → Arr α
  | dim : List (Arr α) → Arr α

/-- Indexing `a[0]` along the leading axis (as used by `step_env` when
`n_agents == 1`). -/
def arrGet0 {α : Type} : Arr α → Arr α
  | .scalar a => .scalar a
  | .dim xs => xs.headD (.dim [])

/-- The list of axis lengths of a nested array (following the first
sub-array of each axis). -/
def arrShape {α : Type} : Arr α → List Nat
  | .scalar _ => []
  | .dim [] => [0]
  | .dim (x :: xs) => (xs.length + 1) :: arrShape x

/-- Build a nested array of the given shape from a multi-index function. -/
def mkArr {α : Type} : List Nat → (List Nat → α) → Arr α
  | [], f => .scalar (f [])
  | n :: rest, f => .dim ((List.range n).map fun i => mkArr rest (fun ix => f (i :: ix)))

/-- A 2-d array embedded as a list of rows. -/
abbrev Grid (α : Type) := List (List α)

/-- Build an `h × w` grid from an index function. -/
def mkGrid {α : Type} (h w : Nat) (f : Nat → Nat → α) : Grid α :=
  (List.range h).map fun i => (List.range w).map fun j => f i j

/-- Read a grid cell, returning a default outside the stored extent. -/
def gridGet {α : Type} (g : Grid α) (d : α) (i j : Nat) : α :=
  (g.getD i []).getD j d

/-- View a boolean grid as a mask function. -/
def gridToMask (g : Grid Bool) : Mask := fun idx => gridGet g false idx.1 idx.2

/-- Deterministic model of the jax PRNG primitives used by the embedded
code. Each field is an arbitrary function of the key, which is exactly the
purity guarantee jax provides; `unif` values are nonnegative since the jax
`uniform` primitive draws from [0, 1). `tri` models `triangle_wave` from
the `sawtooth` module of the repository, which is not under `src/`. -/
structure RandOracle where
  split : Key → Key × Key
  splitN : Key → Nat → List Key
  splitN_length : ∀ k n, (splitN k n).length = n
  unif : Key → Nat × Nat → ℚ
  unif_nonneg : ∀ k idx, 0 ≤ unif k idx
  unif2 : Key → ℚ × ℚ
  unifRange2 : Key → ℚ → ℚ → ℚ × ℚ
  choice : Key → Nat → List ℚ → Nat × Nat → Nat
  randintAt : Key → Nat → Nat → List Nat → Nat
  tri : ℚ → ℚ → ℚ → ℚ

/-- The jax `random.bernoulli(key, p, shape)` primitive: a uniform draw compared with
the probability, pointwise at each cell. -/
def bernoulli (R : RandOracle) (k : Key) (p : ℚ) (idx : Nat × Nat) : Bool :=
  decide (R.unif k idx < p)

/-- Interface of a `Representation` subclass (`envs/reps/*`, not under
`src/`): `reset`, `step`, `get_obs` and the configured `max_steps` budget,
as invoked by the orchestrator in `src/envs/pcgrl_env.py`. -/
structure RepIface (RS Ob : Type) where
  max_steps : Nat
  reset : Mask → Key → RS
  step : TMap → Arr Nat → RS → Nat → TMap × Bool × RS
  get_obs : TMap → Mask → RS → Ob

/-- Interface of a `Problem` subclass (`envs/probs/*`, not under `src/`):
`get_stats` with an optional previous state, plus the tile metadata the
orchestrator reads. -/
structure ProbIface (PS : Type) where
  tile_enum_len : Nat
  tile_probs : List ℚ
  get_stats : TMap → Option PS → ℚ × PS

/-- A constructed `PCGRLEnv`: the attributes `__init__` stores. The
`static_tile_prob` attribute is `np.float32(...)` of the parameter, so it
is always an actual number (never `None`) on a constructed environment. -/
structure PCGRLEnvC (RS PS Ob : Type) where
  rep : RepIface RS Ob
  prob : ProbIface PS
  n_agents : Nat
  map_shape : Nat × Nat
  act_shape : Nat × Nat
  static_tile_prob : ℚ
  n_freezies : Nat

/-- `PCGRLEnvState` from `src/envs/pcgrl_env.py` (lines 35-43). -/
structure PCGRLEnvState (RS PS : Type) where
  env_map : TMap
  static_map : Mask
  rep_state : RS
  prob_state : PS
  step_idx : Nat
  reward : ℚ
  done : Bool

/-- `gen_init_map` (lines 59-62): `jax.random.choice` over the tile
vocabulary, pointwise at each cell of the map shape. -/
def gen_init_map (R : RandOracle) (rng : Key) (tile_enum_len : Nat)
    (_map_shape : Nat × Nat) (tile_probs : List ℚ) : TMap :=
  fun idx => R.choice rng tile_enum_len tile_probs idx

/-- The jax tracing errors `gen_freezie` can raise: the `IndexError` from
the static indexing `row = rect[0]; col = rect[1]` (lines 78-79) when
`map_shape[0] < 2`, and the `ValueError` from
`jnp.stack((r_tri, c_tri))` (line 88) when the two profiles have unequal
lengths, that is whenever `map_shape` is not square. -/
inductive JaxErr : Type where
  | indexError : JaxErr
  | valueError : JaxErr
deriving DecidableEq

/-- `gen_freezie`, the inner function of `gen_static_tiles` (lines 70-99):
threshold two triangle-wave profiles and take their outer product to get a
rectangular-ish blob mask. The bindings `row = rect[0]; col = rect[1]`
(lines 78-79) are otherwise unused but raise `IndexError` when
`map_shape[0] < 2`; `jnp.stack((r_tri, c_tri))` (line 88) raises
`ValueError` when `map_shape[1] != map_shape[0]`, since `r_tri` has length
`map_shape[1]` and `c_tri` has length `map_shape[0]`. On a square shape
the stacked maximum/minimum range over the elements of both profiles. -/
def gen_freezie (R : RandOracle) (map_shape : Nat × Nat) (rng : Key) :
    Except JaxErr (Grid Bool) :=
  let s := R.split rng
  let rng_ := s.2
  let height := map_shape.1
  let width := map_shape.2
  if height < 2 then .error .indexError
  else
    let locs := R.unif2 rng_
    let r_loc := locs.1
    let c_loc := locs.2
    let r_tri := (List.range width).map fun j => R.tri ((j : ℚ) / (width : ℚ)) r_loc 2
    let c_tri := (List.range height).map fun i => R.tri ((i : ℚ) / (height : ℚ)) c_loc 2
    if width ≠ height then .error .valueError
    else
      let rc_tris := r_tri ++ c_tri
      let maxval := rc_tris.foldl max (rc_tris.headD 0)
      let minval := rc_tris.foldl min (rc_tris.headD 0)
      let cut := R.unifRange2 rng_ (minval * (3 / 2)) maxval
      let r_cut := cut.1
      let c_cut := cut.2
      .ok (mkGrid height width fun i j =>
        decide (r_cut < r_tri.getD j 0) && decide (c_cut < c_tri.getD i 0))

/-- The blob mask a successful `gen_freezie` call returns; the empty grid
on shapes where it raises. -/
def gen_freezie_blob (R : RandOracle) (map_shape : Nat × Nat) (rng : Key) :
    Grid Bool :=
  (gen_freezie R map_shape rng).toOption.getD []

/-- `gen_static_tiles` (lines 65-120): a Bernoulli static mask, unioned —
via `clip(sum, 0, 1).astype(bool)` — with the vmapped freezie blobs when
`n_freezies > 0`. Any error the traced `gen_freezie` raises propagates
out of the call. -/
def gen_static_tiles (R : RandOracle) (rng : Key) (static_tile_prob : ℚ)
    (n_freezies : Nat) (map_shape : Nat × Nat) : Except JaxErr (Grid Bool) :=
  let s := R.split rng
  let static_rng := s.1
  let rng := s.2
  let static_tiles := mkGrid map_shape.1 map_shape.2 fun i j =>
    bernoulli R static_rng static_tile_prob (i, j)
  if 0 < n_freezies then
    let frz_keys := R.splitN rng n_freezies
    match frz_keys.mapM (gen_freezie R map_shape) with
    | .error e => .error e
    | .ok rects =>
      let summed := mkGrid map_shape.1 map_shape.2 fun i j =>
        min ((rects.map fun r => if gridGet r false i j then (1 : Nat) else 0).sum) 1
      .ok (mkGrid map_shape.1 map_shape.2 fun i j =>
        decide (0 < gridGet summed 0 i j) || gridGet static_tiles false i j)
  else .ok static_tiles

/-- `is_terminal` (lines 247-251): `step_idx >= max_steps - 1`. -/
def is_terminal {RS PS Ob : Type} (E : PCGRLEnvC RS PS Ob)
    (s : PCGRLEnvState RS PS) : Bool :=
  decide (E.rep.max_steps - 1 ≤ s.step_idx)

/-- `reset_env` (lines 189-210). Since `__init__` coerces
`static_tile_prob` with `np.float32`, the `is not None` test on line 194
always holds and a static mask is always generated. On the configurations
where `gen_static_tiles` raises, the Python `reset_env` itself raises and
no episode state ever exists; the embedding extends those configurations
by the empty grid (an all-false mask), so the step-level theorems — which
quantify over arbitrary states anyway — are unaffected. -/
def reset_env {RS PS Ob : Type} (E : PCGRLEnvC RS PS Ob) (R : RandOracle)
    (rng : Key) : Ob × PCGRLEnvState RS PS :=
  let env_map := gen_init_map R rng E.prob.tile_enum_len E.map_shape E.prob.tile_probs
  let frz_map := gridToMask
    ((gen_static_tiles R rng E.static_tile_prob E.n_freezies E.map_shape).toOption.getD [])
  let rep_state := E.rep.reset frz_map rng
  let obs := E.rep.get_obs env_map frz_map rep_state
  let stats := E.prob.get_stats env_map none
  let rep_state := E.rep.reset frz_map rng
  let env_state : PCGRLEnvState RS PS :=
    { env_map := env_map, static_map := frz_map, rep_state := rep_state,
      prob_state := stats.2, step_idx := 0, reward := 0, done := false }
  (obs, env_state)

/-- The `if self.n_agents == 1: action = action[0]` indexing at the top of
`step_env` (lines 214-215). -/
def strip_action (n_agents : Nat) (action : Arr Nat) : Arr Nat :=
  if n_agents = 1 then arrGet0 action else action

/-- `step_env` (lines 212-245): delegate to the representation, overlay
the static mask, conditionally recompute stats, build the next state. The
final component models the gymnax `discount` entry of the info dict. -/
def step_env {RS PS Ob : Type} (E : PCGRLEnvC RS PS Ob) (R : RandOracle)
    (rng : Key) (s : PCGRLEnvState RS PS) (action : Arr Nat) :
    Ob × PCGRLEnvState RS PS × ℚ × Bool × ℚ :=
  let action := strip_action E.n_agents action
  let stepped := E.rep.step s.env_map action s.rep_state s.step_idx
  let env_map0 := stepped.1
  let map_changed := stepped.2.1
  let rep_state := stepped.2.2
  let env_map : TMap := fun idx =>
    if s.static_map idx then s.env_map idx else env_map0 idx
  let rp := if map_changed then E.prob.get_stats env_map (some s.prob_state)
            else (0, s.prob_state)
  let reward := rp.1
  let prob_state := rp.2
  let obs := E.rep.get_obs env_map s.static_map rep_state
  let done := is_terminal E s
  let step_idx := s.step_idx + 1
  let s' : PCGRLEnvState RS PS :=
    { env_map := env_map, static_map := s.static_map, rep_state := rep_state,
      prob_state := prob_state, step_idx := step_idx, reward := reward,
      done := done }
  (obs, s', reward, done, if is_terminal E s' then 0 else 1)

/-- `action_shape` (lines 270-271):
`(n_agents, *act_shape, len(tile_enum) - 1)`. -/
def action_shape {RS PS Ob : Type} (E : PCGRLEnvC RS PS Ob) : List Nat :=
  [E.n_agents, E.act_shape.1, E.act_shape.2, E.prob.tile_enum_len - 1]

/-- `sample_action` (lines 273-279): `randint` over `action_shape[:-1]`
with a fresh leading axis added by `[None, ...]`. -/
def sample_action {RS PS Ob : Type} (E : PCGRLEnvC RS PS Ob) (R : RandOracle)
    (rng : Key) : Arr Nat :=
  let shape := action_shape E
  let act_window_shape := shape.dropLast
  let n_tiles := shape.getLastD 0
  Arr.dim [mkArr act_window_shape fun ix => R.randintAt rng 0 n_tiles ix]

/-- Run `step_env` over a list of per-step (rng, action) pairs, keeping
the final environment state. -/
def run_episode {RS PS Ob : Type} (E : PCGRLEnvC RS PS Ob) (R : RandOracle)
    (s : PCGRLEnvState RS PS) (steps : List (Key × Arr Nat)) :
    PCGRLEnvState RS PS :=
  steps.foldl (fun st ra => (step_env E R ra.1 st ra.2).2.1) s

/-- Run `step_env` over a list of per-step (rng, action) pairs, collecting
every per-step return value (observation, state, reward, done, info). -/
def run_trace {RS PS Ob : Type} (E : PCGRLEnvC RS PS Ob) (R : RandOracle) :
    PCGRLEnvState RS PS → List (Key × Arr Nat) →
    List (Ob × PCGRLEnvState RS PS × ℚ × Bool × ℚ)
  | _, [] => []
  | s, ra :: rest =>
    let out := step_env E R ra.1 s ra.2
    out :: run_trace E R out.2.1 rest

/-- A full run: `reset_env` with a seed key, then the step sequence,
returning the reset observation and state and the whole step trace. -/
def full_run {RS PS Ob : Type} (E : PCGRLEnvC RS PS Ob) (R : RandOracle)
    (rng : Key) (steps : List (Key × Arr Nat)) :
    Ob × PCGRLEnvState RS PS × List (Ob × PCGRLEnvState RS PS × ℚ × Bool × ℚ) :=
  let init := reset_env E R rng
  (init.1, init.2, run_trace E R init.2 steps)

/-- `mutate_frz_map` from `src/evo_accel.py` (lines 145-153):
`jnp.logical_xor` of the frozen map with a Bernoulli mask of the same
shape, pointwise at each stored cell. -/
def mutate_frz_map (R : RandOracle) (rng : Key) (frz_map : Grid Bool)
    (evo_mutate_prob : ℚ) : Grid Bool :=
  (List.range frz_map.length).map fun i =>
    (List.range (frz_map.getD i []).length).map fun j =>
      xor (gridGet frz_map false i j) (bernoulli R rng evo_mutate_prob (i, j))

/-- `PCGRLEnvParams` (lines 46-56), with the `ProbEnum`/`RepEnum` members
as their `IntEnum` integer codes (`BINARY = 0`; `NARROW = 0`,
`TURTLE = 1`, `WIDE = 2`, `NCA = 3`) and map/window shapes as raw integer
pairs, so degenerate and unrecognized parameter values are expressible. -/
structure PCGRLEnvParams where
  problem : Nat := 0
  representation : Nat := 0
  map_shape : Int × Int := (16, 16)
  act_shape : Int × Int := (1, 1)
  rf_shape : Int × Int := (31, 31)
  static_tile_prob : ℚ := 0
  n_freezies : Nat := 0
  n_agents : Nat := 1
  max_board_scans : ℚ := 3

/-- The ways `PCGRLEnv.__init__` can raise: the explicit
problem-not-implemented `Exception` (line 138), the jax error from
`jax.random.choice` in `gen_init_map` when a dimension of the requested
shape is negative (line 143), and the explicit
representation-not-implemented `Exception` (line 181). -/
inductive InitErr : Type where
  | problemNotImplemented : Nat → InitErr
  | negativeDimension : InitErr
  | repNotImplemented : Nat → InitErr

/-- The attributes a successful `PCGRLEnv.__init__` stores. -/
structure InitOk where
  map_shape : Int × Int
  act_shape : Int × Int
  n_agents : Nat

/-- `PCGRLEnv.__init__` (lines 124-184), as a fallible construction. The
checks appear in source order: the problem-kind dispatch, then the dummy
initial map generation (which is the only place a degenerate shape can
fail: `jax.random.choice` rejects negative dimensions but accepts
zero-sized ones), then the representation-kind dispatch. The
`BinaryProblem` and representation constructors live in modules not under
`src/` and perform no further parameter validation; they are modelled as
total. -/
def pcgrl_env_init (p : PCGRLEnvParams) : Except InitErr InitOk :=
  if p.problem = 0 then
    if p.map_shape.1 < 0 ∨ p.map_shape.2 < 0 then
      .error .negativeDimension
    else if p.representation = 0 ∨ p.representation = 1 ∨
        p.representation = 2 ∨ p.representation = 3 then
      .ok { map_shape := p.map_shape, act_shape := p.act_shape,
            n_agents := p.n_agents }
    else .error (.repNotImplemented p.representation)
  else .error (.problemNotImplemented p.problem)

/-- Whether construction succeeded (no exception escaped `__init__`). -/
def initAccepted (p : PCGRLEnvParams) : Bool :=
  match pcgrl_env_init p with
  | .ok _ => true
  | .error _ => false

/-- A concrete oracle instance used to evaluate the claims on concrete
inputs: every uniform draw is 0 and key splitting is a fixed scheme. -/
def oracle0 : RandOracle where
  split := fun k => (2 * k, 2 * k + 1)
  splitN := fun _ n => List.range n
  splitN_length := fun _ n => List.length_range n
  unif := fun _ _ => 0
  unif_nonneg := fun _ _ => le_refl 0
  unif2 := fun _ => (0, 0)
  unifRange2 := fun _ _ _ => (0, 0)
  choice := fun _ _ _ _ => 0
  randintAt := fun _ _ _ _ => 0
  tri := fun _ _ _ => 0

/-- A concrete representation whose step never changes the map. -/
def rep0 : RepIface Unit Unit where
  max_steps := 4
  reset := fun _ _ => ()
  step := fun m _ s _ => (m, false, s)
  get_obs := fun _ _ _ => ()

/-- A concrete problem with three tiles and constant stats. -/
def prob0 : ProbIface Unit where
  tile_enum_len := 3
  tile_probs := []
  get_stats := fun _ _ => (0, ())

/-- A concrete single-agent environment over `rep0` and `prob0`. -/
def env0 : PCGRLEnvC Unit Unit Unit where
  rep := rep0
  prob := prob0
  n_agents := 1
  map_shape := (2, 2)
  act_shape := (1, 1)
  static_tile_prob := 0
  n_freezies := 0

/-- The same environment with static tile probability 1, so the reset-time
static mask is true everywhere. -/
def env1 : PCGRLEnvC Unit Unit Unit :=
  { env0 with static_tile_prob := 1 }

/-- A concrete environment state for evaluating step theorems. -/
def s0 : PCGRLEnvState Unit Unit where
  env_map := fun _ => 0
  static_map := fun _ => false
  rep_state := ()
  prob_state := ()
  step_idx := 0
  reward := 0
  done := false

theorem bernoulli_zero (R : RandOracle) (k : Key) (idx : Nat × Nat) :
    bernoulli R k 0 idx = false := by
  simp [bernoulli, not_lt.mpr (R.unif_nonneg k idx)]

theorem mkGrid_length {α : Type} (h w : Nat) (f : Nat → Nat → α) :
    (mkGrid h w f).length = h := by
  simp [mkGrid]

theorem mkGrid_row_length {α : Type} (h w : Nat) (f : Nat → Nat → α) :
    ∀ row ∈ mkGrid h w f, row.length = w := by
  intro row hrow
  simp only [mkGrid, List.mem_map] at hrow
  obtain ⟨i, _, rfl⟩ := hrow
  simp

theorem list_getD_lt {α : Type} (l : List α) (d : α) (i : Nat) (h : i < l.length) :
    l.getD i d = l[i] := by
  simp [List.getD, List.getElem?_eq_getElem h]

theorem gridGet_mkGrid {α : Type} (h w : Nat) (f : Nat → Nat → α) (d : α)
    (i j : Nat) (hi : i < h) (hj : j < w) :
    gridGet (mkGrid h w f) d i j = f i j := by
  unfold gridGet mkGrid
  rw [list_getD_lt _ _ i (by simpa using hi)]
  rw [List.getElem_map]
  rw [list_getD_lt _ _ j (by simpa using hj)]
  simp

/-- C1: for every representation interface and every environment state,
the done flag returned by `step_env` (and stored in the returned state)
is true exactly when the input step index has reached `max_steps - 1`, and
is hence false for all smaller indices; the stored step index increments
by one each step, so within an episode the flag first fires at index
`max_steps - 1`. -/
theorem step_env_done_iff_budget {RS PS Ob : Type} (E : PCGRLEnvC RS PS Ob)
    (R : RandOracle) (rng : Key) (s : PCGRLEnvState RS PS) (a : Arr Nat) :
    (step_env E R rng s a).2.2.2.1 = decide (E.rep.max_steps - 1 ≤ s.step_idx)
    ∧ (step_env E R rng s a).2.1.done = decide (E.rep.max_steps - 1 ≤ s.step_idx)
    ∧ (step_env E R rng s a).2.1.step_idx = s.step_idx + 1 :=
  ⟨rfl, rfl, rfl⟩

/-- C2: if the representation step reports `changed = false`, then
`step_env` returns reward exactly 0 (also stored in the new state) and the
new problem state equals the old one. -/
theorem step_env_noop_reward {RS PS Ob : Type} (E : PCGRLEnvC RS PS Ob)
    (R : RandOracle) (rng : Key) (s : PCGRLEnvState RS PS) (a : Arr Nat)
    (h : (E.rep.step s.env_map (strip_action E.n_agents a) s.rep_state s.step_idx).2.1 = false) :
    (step_env E R rng s a).2.2.1 = 0
    ∧ (step_env E R rng s a).2.1.prob_state = s.prob_state
    ∧ (step_env E R rng s a).2.1.reward = 0 := by
  simp [step_env, h]

theorem step_env_noop_reward_witness :
    (step_env env0 oracle0 0 s0 (Arr.scalar 0)).2.2.1 = 0
    ∧ (step_env env0 oracle0 0 s0 (Arr.scalar 0)).2.1.prob_state = s0.prob_state
    ∧ (step_env env0 oracle0 0 s0 (Arr.scalar 0)).2.1.reward = 0 :=
  step_env_noop_reward env0 oracle0 0 s0 (Arr.scalar 0) rfl

/-- Helper for the frozen-tile invariant: running any step sequence from
any state keeps the static mask intact and keeps the map value at any cell
the mask marks static. -/
theorem run_episode_static_invariant {RS PS Ob : Type} (E : PCGRLEnvC RS PS Ob)
    (R : RandOracle) (steps : List (Key × Arr Nat)) :
    ∀ (s : PCGRLEnvState RS PS) (idx : Nat × Nat), s.static_map idx = true →
      (run_episode E R s steps).static_map = s.static_map
      ∧ (run_episode E R s steps).env_map idx = s.env_map idx := by
  induction steps with
  | nil => exact fun s idx h => ⟨rfl, rfl⟩
  | cons ra rest ih =>
    intro s idx h
    have hstat : ((step_env E R ra.1 s ra.2).2.1).static_map = s.static_map := rfl
    have henv : ((step_env E R ra.1 s ra.2).2.1).env_map idx = s.env_map idx := by
      simp [step_env, h]
    obtain ⟨ih1, ih2⟩ :=
      ih ((step_env E R ra.1 s ra.2).2.1) idx (by rw [hstat]; exact h)
    have hrun : run_episode E R s (ra :: rest)
        = run_episode E R ((step_env E R ra.1 s ra.2).2.1) rest := rfl
    exact ⟨by rw [hrun, ih1, hstat], by rw [hrun, ih2, henv]⟩

/-- C3: any cell marked static in the mask generated at reset keeps, after
every step of the episode, the value it had at reset: the static overlay
always wins over representation edits. -/
theorem frozen_cell_keeps_reset_value {RS PS Ob : Type} (E : PCGRLEnvC RS PS Ob)
    (R : RandOracle) (rng : Key) (steps : List (Key × Arr Nat)) (idx : Nat × Nat)
    (h : (reset_env E R rng).2.static_map idx = true) :
    (run_episode E R (reset_env E R rng).2 steps).env_map idx
      = (reset_env E R rng).2.env_map idx :=
  (run_episode_static_invariant E R steps _ idx h).2

theorem frozen_cell_keeps_reset_value_witness :
    (run_episode env1 oracle0 (reset_env env1 oracle0 0).2
        [(0, Arr.scalar 0), (1, Arr.scalar 1)]).env_map (0, 0)
      = (reset_env env1 oracle0 0).2.env_map (0, 0) :=
  frozen_cell_keeps_reset_value env1 oracle0 0
    [(0, Arr.scalar 0), (1, Arr.scalar 1)] (0, 0) (by decide)

/-- C4: `reset_env` and `step_env` are pure functions of the seed, state
and action: two full runs given equal seeds and equal per-step
(rng, action) sequences produce equal observation/state/reward traces,
bit for bit. -/
theorem full_run_deterministic {RS PS Ob : Type} (E : PCGRLEnvC RS PS Ob)
    (R : RandOracle) (rng rng' : Key) (steps steps' : List (Key × Arr Nat))
    (hr : rng = rng') (hs : steps = steps') :
    full_run E R rng steps = full_run E R rng' steps' := by
  subst hr
  subst hs
  rfl

theorem full_run_deterministic_witness :
    full_run env0 oracle0 7 [(3, Arr.scalar 1)]
      = full_run env0 oracle0 7 [(3, Arr.scalar 1)] :=
  full_run_deterministic env0 oracle0 7 7 [(3, Arr.scalar 1)]
    [(3, Arr.scalar 1)] rfl rfl

/-- C7: with `n_agents = 1`, `step_env` consumes only `action[0]` — two
action arrays with equal leading entries produce identical results — and
`sample_action` returns an array whose leading axis has size 1. -/
theorem single_agent_leading_axis {RS PS Ob : Type} (E : PCGRLEnvC RS PS Ob)
    (R : RandOracle) (rng : Key) (s : PCGRLEnvState RS PS) (a b : Arr Nat)
    (hn : E.n_agents = 1) (hab : arrGet0 a = arrGet0 b) :
    step_env E R rng s a = step_env E R rng s b
    ∧ (arrShape (sample_action E R rng)).head? = some 1 := by
  constructor
  · simp [step_env, strip_action, hn, hab]
  · rfl

theorem single_agent_leading_axis_witness :
    step_env env0 oracle0 0 s0 (Arr.dim [Arr.scalar 0, Arr.scalar 1])
      = step_env env0 oracle0 0 s0 (Arr.dim [Arr.scalar 0])
    ∧ (arrShape (sample_action env0 oracle0 0)).head? = some 1 :=
  single_agent_leading_axis env0 oracle0 0 s0
    (Arr.dim [Arr.scalar 0, Arr.scalar 1]) (Arr.dim [Arr.scalar 0]) rfl rfl

/-- C8: the static mask stored in the state returned by `step_env` is the
very mask of the input state; no step alters it. -/
theorem step_env_static_map_unchanged {RS PS Ob : Type} (E : PCGRLEnvC RS PS Ob)
    (R : RandOracle) (rng : Key) (s : PCGRLEnvState RS PS) (a : Arr Nat) :
    (step_env E R rng s a).2.1.static_map = s.static_map :=
  rfl

/-- C6: an unimplemented problem kind (any `ProbEnum` code other than
`BINARY = 0`) or an unrecognized representation kind makes `__init__`
raise during construction, so no environment object exists whose reset or
step could be reached. -/
theorem init_rejects_unrecognized_kinds (p : PCGRLEnvParams)
    (h : p.problem ≠ 0
      ∨ (p.representation ≠ 0 ∧ p.representation ≠ 1
          ∧ p.representation ≠ 2 ∧ p.representation ≠ 3)) :
    initAccepted p = false := by
  unfold initAccepted pcgrl_env_init
  split_ifs with h1 h2 h3 <;> simp_all

theorem init_rejects_unrecognized_kinds_witness :
    initAccepted { problem := 1 } = false
    ∧ initAccepted { representation := 7 } = false :=
  ⟨init_rejects_unrecognized_kinds { problem := 1 } (Or.inl (by decide)),
   init_rejects_unrecognized_kinds { representation := 7 }
     (Or.inr (by refine ⟨?_, ?_, ?_, ?_⟩ <;> decide))⟩

/-- C5 counterexample: constructing with a zero-sized map dimension and
zero-length action and observation windows raises no error — `__init__`
performs no such validation and `jax.random.choice` accepts zero-sized
shapes — so the claimed construction-time rejection does not happen. -/
theorem degenerate_shape_accepted :
    initAccepted
      { map_shape := (0, 16), act_shape := (0, 0), rf_shape := (0, 0) }
      = true := by
  decide

/-- C5 amended: construction performs no explicit shape validation; with
a recognized problem and representation kind it fails exactly when a map
dimension is negative (the dummy initial-map generation inside `__init__`
rejects negative dimensions), while zero-sized map dimensions and
zero-length action/observation windows are accepted without error. -/
theorem init_rejects_only_negative_dims (p : PCGRLEnvParams)
    (hp : p.problem = 0)
    (hr : p.representation = 0 ∨ p.representation = 1
      ∨ p.representation = 2 ∨ p.representation = 3) :
    initAccepted p = false ↔ (p.map_shape.1 < 0 ∨ p.map_shape.2 < 0) := by
  unfold initAccepted pcgrl_env_init
  split_ifs with h1 h2 h3 <;> simp_all

theorem init_rejects_only_negative_dims_witness :
    initAccepted { map_shape := ((-1 : Int), 5) } = false :=
  (init_rejects_only_negative_dims { map_shape := ((-1 : Int), 5) } rfl
    (Or.inl rfl)).mpr (Or.inl (by decide))

theorem sum_ite_pos_iff_any {α : Type} (l : List α) (p : α → Bool) :
    (0 < (l.map fun a => if p a then (1 : Nat) else 0).sum) ↔ l.any p = true := by
  induction l with
  | nil => simp
  | cons x xs ih => by_cases hx : p x <;> simp [hx, ih]

theorem gen_freezie_err_low (R : RandOracle) (hh ww : Nat) (rng : Key)
    (hlow : hh < 2) :
    gen_freezie R (hh, ww) rng = .error .indexError := by
  simp only [gen_freezie]
  rw [if_pos hlow]

theorem gen_freezie_err_nonsquare (R : RandOracle) (hh ww : Nat) (rng : Key)
    (h2 : 2 ≤ hh) (hne : ww ≠ hh) :
    gen_freezie R (hh, ww) rng = .error .valueError := by
  simp only [gen_freezie]
  rw [if_neg (Nat.not_lt.mpr h2), if_pos hne]

theorem gen_freezie_ok_of_square (R : RandOracle) (hh ww : Nat) (rng : Key)
    (h2 : 2 ≤ hh) (hsq : ww = hh) :
    gen_freezie R (hh, ww) rng = .ok (gen_freezie_blob R (hh, ww) rng) := by
  have hok : ∃ b, gen_freezie R (hh, ww) rng = .ok b := by
    simp only [gen_freezie]
    rw [if_neg (Nat.not_lt.mpr h2), if_neg (by simp [hsq])]
    exact ⟨_, rfl⟩
  obtain ⟨b, hb⟩ := hok
  rw [hb]
  simp only [gen_freezie_blob, hb]
  rfl

theorem mapM_ok_of_forall {α β ε : Type} (l : List α) (f : α → Except ε β)
    (g : α → β) (h : ∀ a ∈ l, f a = .ok (g a)) :
    l.mapM f = .ok (l.map g) := by
  induction l with
  | nil => rfl
  | cons x xs ih =>
    rw [List.mapM_cons, h x (by simp),
      ih fun a ha => h a (List.mem_cons_of_mem x ha)]
    rfl

theorem mapM_error_head {α β ε : Type} (x : α) (l : List α)
    (f : α → Except ε β) (e : ε) (h : f x = .error e) :
    (x :: l).mapM f = (.error e : Except ε (List β)) := by
  rw [List.mapM_cons, h]
  rfl

theorem splitN_cons (R : RandOracle) (k : Key) (n : Nat) (hn : 0 < n) :
    ∃ x rest, R.splitN k n = x :: rest := by
  cases hsp : R.splitN k n with
  | nil =>
    have hlen := R.splitN_length k n
    rw [hsp] at hlen
    simp at hlen
    omega
  | cons x rest => exact ⟨x, rest, rfl⟩

/-- C9 counterexample: with `n_freezies > 0`, `gen_static_tiles` does not
return a mask for every map shape — at shape (1, 1) the traced
`gen_freezie` raises `IndexError` (the `rect[1]` indexing) and at the
non-square shape (2, 3) it raises `ValueError` (the `jnp.stack` of
unequal-length profiles), so the claimed OR-shaped result is never
produced there. -/
theorem gen_static_tiles_raises_on_degenerate_shapes :
    gen_static_tiles oracle0 0 1 1 (1, 1) = .error .indexError
    ∧ gen_static_tiles oracle0 0 1 1 (2, 3) = .error .valueError := by
  constructor <;> rfl

/-- C9 amended: with `n_freezies = 0`, `gen_static_tiles` returns the
Bernoulli(static_tile_prob) sample alone, of shape `map_shape`, for every
map shape. With `n_freezies > 0` it returns — only on square map shapes
with both dimensions at least 2 — a grid of shape `map_shape` whose cells
are the pointwise OR of the Bernoulli sample and the union (pointwise OR)
of the `n_freezies` generated blob masks; on shapes with height < 2 it
raises `IndexError`, and on remaining non-square shapes `ValueError`. -/
theorem gen_static_tiles_or_decomposition (R : RandOracle) (rng : Key)
    (p : ℚ) (n h w i j : Nat) (hi : i < h) (hj : j < w) :
    (0 < n → 2 ≤ h → w = h →
      ∃ g rects,
        gen_static_tiles R rng p n (h, w) = .ok g
        ∧ (R.splitN (R.split rng).2 n).mapM (gen_freezie R (h, w)) = .ok rects
        ∧ rects.length = n
        ∧ g.length = h ∧ (∀ row ∈ g, row.length = w)
        ∧ gridGet g false i j
            = (bernoulli R (R.split rng).1 p (i, j)
               || rects.any fun r => gridGet r false i j))
    ∧ (0 < n → h < 2 →
        gen_static_tiles R rng p n (h, w) = .error .indexError)
    ∧ (0 < n → 2 ≤ h → w ≠ h →
        gen_static_tiles R rng p n (h, w) = .error .valueError)
    ∧ (n = 0 →
        ∃ g, gen_static_tiles R rng p n (h, w) = .ok g
          ∧ g.length = h ∧ (∀ row ∈ g, row.length = w)
          ∧ gridGet g false i j = bernoulli R (R.split rng).1 p (i, j)) := by
  refine ⟨fun hn h2 hsq => ?_, fun hn hlow => ?_, fun hn h2 hne => ?_,
    fun h0 => ?_⟩
  · have hmapM : (R.splitN (R.split rng).2 n).mapM (gen_freezie R (h, w))
        = .ok ((R.splitN (R.split rng).2 n).map (gen_freezie_blob R (h, w))) :=
      mapM_ok_of_forall _ _ _ fun a _ => gen_freezie_ok_of_square R h w a h2 hsq
    have hok : gen_static_tiles R rng p n (h, w)
        = .ok (mkGrid h w fun a b =>
            decide (0 < gridGet (mkGrid h w fun a b =>
              min ((((R.splitN (R.split rng).2 n).map (gen_freezie_blob R (h, w))).map
                fun r => if gridGet r false a b then (1 : Nat) else 0).sum) 1) 0 a b)
            || gridGet (mkGrid h w fun a b =>
                bernoulli R (R.split rng).1 p (a, b)) false a b) := by
      simp only [gen_static_tiles, if_pos hn]
      rw [hmapM]
    refine ⟨_, _, hok, hmapM, ?_, mkGrid_length _ _ _, mkGrid_row_length _ _ _, ?_⟩
    · rw [List.length_map, R.splitN_length]
    · rw [gridGet_mkGrid _ _ _ _ _ _ hi hj, gridGet_mkGrid _ _ _ _ _ _ hi hj,
        gridGet_mkGrid _ _ _ _ _ _ hi hj]
      have hmin : (0 < min ((((R.splitN (R.split rng).2 n).map
            (gen_freezie_blob R (h, w))).map fun r =>
              if gridGet r false i j then (1 : Nat) else 0).sum) 1)
          ↔ (((R.splitN (R.split rng).2 n).map
              (gen_freezie_blob R (h, w))).any fun r =>
                gridGet r false i j) = true := by
        rw [lt_min_iff, sum_ite_pos_iff_any]
        simp
      rw [decide_eq_decide.mpr hmin, Bool.decide_coe, Bool.or_comm]
  · obtain ⟨x, rest, hsp⟩ := splitN_cons R (R.split rng).2 n hn
    simp only [gen_static_tiles, if_pos hn]
    rw [hsp, mapM_error_head x rest _ _ (gen_freezie_err_low R h w x hlow)]
  · obtain ⟨x, rest, hsp⟩ := splitN_cons R (R.split rng).2 n hn
    simp only [gen_static_tiles, if_pos hn]
    rw [hsp, mapM_error_head x rest _ _ (gen_freezie_err_nonsquare R h w x h2 hne)]
  · subst h0
    have hok : gen_static_tiles R rng p 0 (h, w)
        = .ok (mkGrid h w fun a b => bernoulli R (R.split rng).1 p (a, b)) := by
      simp [gen_static_tiles]
    exact ⟨_, hok, mkGrid_length _ _ _, mkGrid_row_length _ _ _,
      gridGet_mkGrid _ _ _ _ _ _ hi hj⟩

theorem gen_static_tiles_or_decomposition_witness :
    ∃ g rects,
      gen_static_tiles oracle0 0 1 1 (2, 2) = .ok g
      ∧ (oracle0.splitN (oracle0.split 0).2 1).mapM (gen_freezie oracle0 (2, 2)) = .ok rects
      ∧ rects.length = 1
      ∧ g.length = 2 ∧ (∀ row ∈ g, row.length = 2)
      ∧ gridGet g false 0 1
          = (bernoulli oracle0 (oracle0.split 0).1 1 (0, 1)
             || rects.any fun r => gridGet r false 0 1) :=
  (gen_static_tiles_or_decomposition oracle0 0 1 1 2 2 0 1
    (by decide) (by decide)).1 (by decide) (by decide) rfl

theorem xor_xor_right (a b : Bool) : xor (xor a b) b = a := by
  cases a <;> cases b <;> rfl

theorem gridGet_eq_getElem {α : Type} (g : Grid α) (d : α) (i j : Nat)
    (hi : i < g.length) (hj : j < g[i].length) :
    gridGet g d i j = g[i][j] := by
  unfold gridGet
  rw [list_getD_lt _ _ i hi, list_getD_lt _ _ j hj]

theorem mutate_frz_map_length (R : RandOracle) (rng : Key) (g : Grid Bool)
    (p : ℚ) : (mutate_frz_map R rng g p).length = g.length := by
  simp [mutate_frz_map]

theorem getElem_mutate_frz_map (R : RandOracle) (rng : Key) (g : Grid Bool)
    (p : ℚ) (i : Nat) (hi : i < (mutate_frz_map R rng g p).length) :
    (mutate_frz_map R rng g p)[i]
      = (List.range (g.getD i []).length).map fun j =>
          xor (gridGet g false i j) (bernoulli R rng p (i, j)) := by
  simp [mutate_frz_map]

theorem mutate_frz_map_row_length (R : RandOracle) (rng : Key) (g : Grid Bool)
    (p : ℚ) (i : Nat) :
    ((mutate_frz_map R rng g p).getD i []).length = (g.getD i []).length := by
  by_cases hi : i < g.length
  · rw [list_getD_lt _ _ i (by simpa [mutate_frz_map_length] using hi)]
    rw [getElem_mutate_frz_map R rng g p i (by simpa [mutate_frz_map_length] using hi)]
    simp
  · rw [List.getD_eq_default _ _ (by simpa [mutate_frz_map_length] using Nat.le_of_not_lt hi),
      List.getD_eq_default _ _ (Nat.le_of_not_lt hi)]

theorem gridGet_mutate_frz_map (R : RandOracle) (rng : Key) (g : Grid Bool)
    (p : ℚ) (i j : Nat) (hi : i < g.length) (hj : j < (g.getD i []).length) :
    gridGet (mutate_frz_map R rng g p) false i j
      = xor (gridGet g false i j) (bernoulli R rng p (i, j)) := by
  unfold gridGet
  rw [list_getD_lt _ _ i (by simpa [mutate_frz_map_length] using hi)]
  rw [getElem_mutate_frz_map R rng g p i (by simpa [mutate_frz_map_length] using hi)]
  rw [list_getD_lt _ _ j (by simpa using hj)]
  simp [gridGet]

theorem mutate_frz_map_involutive (R : RandOracle) (rng : Key) (g : Grid Bool)
    (p : ℚ) : mutate_frz_map R rng (mutate_frz_map R rng g p) p = g := by
  apply List.ext_getElem (by simp [mutate_frz_map_length])
  intro i h1 h2
  rw [getElem_mutate_frz_map _ _ _ _ _ h1]
  apply List.ext_getElem
  · rw [List.length_map, List.length_range, mutate_frz_map_row_length,
      list_getD_lt _ _ i h2]
  · intro j hj1 hj2
    simp only [List.getElem_map, List.getElem_range]
    have hj0 : j < (g.getD i []).length := by
      rw [list_getD_lt _ _ i h2]
      exact hj2
    rw [gridGet_mutate_frz_map R rng g p i j h2 hj0, xor_xor_right,
      gridGet_eq_getElem g false i j h2 hj2]

theorem mutate_frz_map_zero_prob (R : RandOracle) (rng : Key) (g : Grid Bool) :
    mutate_frz_map R rng g 0 = g := by
  apply List.ext_getElem (by simp [mutate_frz_map_length])
  intro i h1 h2
  rw [getElem_mutate_frz_map _ _ _ _ _ h1]
  apply List.ext_getElem
  · rw [List.length_map, List.length_range, list_getD_lt _ _ i h2]
  · intro j hj1 hj2
    simp only [List.getElem_map, List.getElem_range, bernoulli_zero,
      Bool.xor_false]
    exact gridGet_eq_getElem g false i j h2 hj2

/-- C10: `mutate_frz_map` returns a grid of the same shape whose cells are
the XOR of the input with a Bernoulli(evo_mutate_prob) mask; applying it
twice with the same rng key restores the original grid, and with
`evo_mutate_prob = 0` it is the identity. -/
theorem mutate_frz_map_xor_law (R : RandOracle) (rng : Key) (g : Grid Bool)
    (p : ℚ) :
    ((mutate_frz_map R rng g p).length = g.length
      ∧ ∀ i : Nat, ((mutate_frz_map R rng g p).getD i []).length
          = (g.getD i []).length)
    ∧ (∀ i j : Nat, i < g.length → j < (g.getD i []).length →
        gridGet (mutate_frz_map R rng g p) false i j
          = xor (gridGet g false i j) (bernoulli R rng p (i, j)))
    ∧ mutate_frz_map R rng (mutate_frz_map R rng g p) p = g
    ∧ mutate_frz_map R rng g 0 = g :=
  ⟨⟨mutate_frz_map_length R rng g p, mutate_frz_map_row_length R rng g p⟩,
   fun i j hi hj => gridGet_mutate_frz_map R rng g p i j hi hj,
   mutate_frz_map_involutive R rng g p,
   mutate_frz_map_zero_prob R rng g⟩

theorem mutate_frz_map_xor_law_witness :
    gridGet (mutate_frz_map oracle0 0 [[true, false]] 1) false 0 1
      = xor (gridGet [[true, false]] false 0 1) (bernoulli oracle0 0 1 (0, 1)) :=
  (mutate_frz_map_xor_law oracle0 0 [[true, false]] 1).2.1 0 1
    (by decide) (by decide)

end PCGRL
